import Mathlib

/-!
Verification development for the systematic-review (SLR) ingestion core:
the RIS record splitter and field extractor (`utils/parser.py`), the
duplicate classifier (`App_/app.py`, `check_duplicates`) and the storage
layer (`utils/data_base.py`, `store_record_in_database` and the batch
commit/rollback loop).  Python strings are modelled as Lean `String`
(lists of characters); Python `None` becomes `Option`; the SQLite tables
become explicit lists; fallible inserts return `Except`.
-/

namespace SLR

/-! ## String primitives modelling Python and SQLite string operations -/

/-- Characters stripped by Python `str.strip()` on ASCII input. -/
def isPyWs (c : Char) : Bool :=
  c = ' ' || c = '\t' || c = '\n' || c = '\r' || c = '\x0b' || c = '\x0c'

/-- Drop characters satisfying `p` from both ends of a character list. -/
def stripChars (p : Char → Bool) (cs : List Char) : List Char :=
  ((cs.dropWhile p).reverse.dropWhile p).reverse

/-- Python `str.strip()` (ASCII whitespace). -/
def pyStrip (s : String) : String := String.mk (stripChars isPyWs s.toList)

/-- ASCII lower-casing.  Python `str.lower()` agrees with this on ASCII input,
and SQLite `LOWER` folds exactly the ASCII range. -/
def asciiLower (s : String) : String := String.mk (s.toList.map Char.toLower)

/-- Incoming-side normalization used by `check_duplicates`: `.strip().lower()`. -/
def pyNorm (s : String) : String := asciiLower (pyStrip s)

/-- SQLite `TRIM`: removes only space characters (0x20) from both ends. -/
def sqlTrim (s : String) : String := String.mk (stripChars (fun c => c = ' ') s.toList)

/-- Stored-side normalization used in the SQL queries: `LOWER(TRIM(x))`. -/
def sqlNorm (s : String) : String := asciiLower (sqlTrim s)

/-- Modelled from the spec words for comparison normalization:
"trim whitespace, lowercase" applied to one value. -/
def specNormalize (s : String) : String := asciiLower (String.mk (stripChars isPyWs s.toList))

/-- Split a character list at newline characters (model of `str.splitlines`
for LF / CR-LF input; every consumer strips each line right away, which
absorbs a trailing CR). -/
def splitNl : List Char → List (List Char)
  | [] => [[]]
  | c :: rest =>
    if c = '\n' then [] :: splitNl rest
    else
      match splitNl rest with
      | [] => [[c]]
      | l :: ls => (c :: l) :: ls

/-- `line.startswith("ER")`. -/
def startsWithER (cs : List Char) : Bool :=
  match cs with
  | a :: b :: _ => a == 'E' && b == 'R'
  | _ => false

/-- `"  -" in line`: the three-character separator occurs at some position. -/
def hasSep : List Char → Bool
  | [] => false
  | a :: rest =>
    (match rest with
     | b :: c :: _ => a == ' ' && b == ' ' && c == '-'
     | _ => false) || hasSep rest

/-- The end-of-record test of `parse_ris_content` (applied to the stripped
line): `line.startswith("ER") and ("  -" in line or line == "ER")`. -/
def isEndMarker (cs : List Char) : Bool :=
  startsWithER cs && (hasSep cs || cs == ['E', 'R'])

/-- Modelled from the spec words for the end-of-record marker: the line
starts with `ER` immediately followed by the tag separator, or is exactly
`ER`. -/
def specIsEndMarker (cs : List Char) : Bool :=
  (match cs with
   | a :: b :: c :: d :: e :: _ => a == 'E' && b == 'R' && c == ' ' && d == ' ' && e == '-'
   | _ => false) || cs == ['E', 'R']

/-- Tag-line test of `parse_ris_record`:
`len(line) >= 6 and line[2:5] == "  -"`. -/
def isTagLine (cs : List Char) : Bool :=
  decide (6 ≤ cs.length) && ((cs.drop 2).take 3 == [' ', ' ', '-'])

/-- `tags[current_tag][-1] += suffix` (only called on non-empty lists;
on `[]` it is the identity). -/
def appendToLast (xs : List String) (suffix : String) : List String :=
  match xs with
  | [] => []
  | [a] => [a ++ suffix]
  | a :: rest => a :: appendToLast rest suffix

/-- Word character for the regex `\b` boundary (`[A-Za-z0-9_]` on ASCII). -/
def isWordChar (c : Char) : Bool := c.isAlphanum || c = '_'

/-- Numeric value of the four decimal digits. -/
def fourDigitVal (a b c d : Char) : Nat :=
  (((a.toNat - 48) * 10 + (b.toNat - 48)) * 10 + (c.toNat - 48)) * 10 + (d.toNat - 48)

/-- Leftmost match of `re.search(r'\b\d{4}\b', s)` converted with `int`:
four digits whose neighbours (if any) are not word characters.  The first
argument carries the character preceding the current position. -/
def findYear : Option Char → List Char → Option Nat
  | prev, a :: b :: c :: d :: rest =>
    if a.isDigit && b.isDigit && c.isDigit && d.isDigit
        && (match prev with | some p => !isWordChar p | none => true)
        && (match rest with | e :: _ => !isWordChar e | [] => true) then
      some (fourDigitVal a b c d)
    else findYear (some a) (b :: c :: d :: rest)
  | _, a :: rest => findYear (some a) rest
  | _, [] => none

/-! ## Tag mapping and record extraction (`parse_ris_record`) -/

/-- The externally supplied field-to-tag mapping (`tag_mapping`); each of
the six fixed keys holds a tag code or null. -/
structure TagMapping where
  title : Option String
  author : Option String
  journal_name : Option String
  publication_year : Option String
  keywords : Option String
  abstract : Option String
deriving DecidableEq

/-- `tag_mapping.values()` restricted to present values: the tags tracked
by the extractor (membership is all that is ever used). -/
def TagMapping.relevantTags (m : TagMapping) : List String :=
  [m.title, m.author, m.journal_name, m.publication_year, m.keywords, m.abstract].filterMap id

/-- Extraction state of `parse_ris_record`: the accumulator `tags`
(every untracked tag maps to `[]`, as in the dict comprehension) and
`current_tag`. -/
structure PState where
  tags : String → List String
  currentTag : Option String

def initPState : PState := ⟨fun _ => [], none⟩

/-- One iteration of the line loop of `parse_ris_record`. -/
def parseLine (m : TagMapping) (st : PState) (raw : List Char) : PState :=
  let line := stripChars isPyWs raw
  if line.isEmpty then st
  else if isTagLine line then
    let tg := String.mk (line.take 2)
    let content := String.mk (stripChars isPyWs (line.drop 6))
    if m.relevantTags.contains tg then
      { tags := fun t => if t = tg then st.tags tg ++ [content] else st.tags t,
        currentTag := some tg }
    else { st with currentTag := none }
  else
    match st.currentTag with
    | some t =>
      if (st.tags t).isEmpty then st
      else { st with
              tags := fun u =>
                if u = t then appendToLast (st.tags t) (" " ++ String.mk line)
                else st.tags u }
    | none => st

/-- The canonical in-memory record produced by `parse_ris_record`. -/
structure NormalizedRecord where
  title : Option String
  journal : Option String
  year : Option Nat
  abstract : Option String
  authors : List String
  keywords : List String
deriving DecidableEq

/-- `tags[t][0] if t and tags.get(t) else None` (a mapped empty-string tag
is falsy in Python, hence also yields `None`). -/
def firstValue (otag : Option String) (tags : String → List String) : Option String :=
  match otag with
  | some tg =>
    if tg = "" then none
    else
      match tags tg with
      | [] => none
      | v :: _ => some v
  | none => none

/-- `tags[t] if t and tags.get(t) else []` (mapping over the empty list is
the empty list, so the truthiness guard collapses to this). -/
def allValues (otag : Option String) (tags : String → List String) : List String :=
  match otag with
  | some tg => if tg = "" then [] else tags tg
  | none => []

/-- `' '.join(tags[t]) if t and tags.get(t) else None`. -/
def joinedValue (otag : Option String) (tags : String → List String) : Option String :=
  match otag with
  | some tg =>
    if tg = "" then none
    else
      match tags tg with
      | [] => none
      | l => some (String.intercalate " " l)
  | none => none

/-- `parse_ris_record`: fold the line loop, then resolve the six fields. -/
def parseRisRecord (record_str : String) (m : TagMapping) : NormalizedRecord :=
  let st := (splitNl record_str.toList).foldl (parseLine m) initPState
  let yearVal : Option Nat :=
    match m.publication_year with
    | some yt =>
      if yt = "" then none
      else
        match st.tags yt with
        | [] => none
        | v :: _ => findYear none v.toList
    | none => none
  { title := firstValue m.title st.tags
    journal := firstValue m.journal_name st.tags
    year := yearVal
    abstract := joinedValue m.abstract st.tags
    authors := (allValues m.author st.tags).map pyStrip
    keywords := (allValues m.keywords st.tags).map pyStrip }

/-- Truthiness of `parsed_record.get('title')`: present and non-empty. -/
def titled (r : NormalizedRecord) : Bool :=
  match r.title with
  | some t => !(t == "")
  | none => false

/-! ## Record splitter (`parse_ris_content`) -/

/-- Splitter state: the pending buffer `current_record` (stripped non-empty
lines) and the records emitted so far. -/
structure SState where
  buf : List (List Char)
  recs : List NormalizedRecord

/-- `'\n'.join(current_record)`. -/
def joinNl : List (List Char) → List Char
  | [] => []
  | [l] => l
  | l :: ls => l ++ '\n' :: joinNl ls

/-- Flush one chunk: parse it and keep the record only when it has a title
(`if parsed_record.get('title')`). -/
def flushRecord (m : TagMapping) (buf : List (List Char))
    (recs : List NormalizedRecord) : List NormalizedRecord :=
  let r := parseRisRecord (String.mk (joinNl buf)) m
  if titled r then recs ++ [r] else recs

/-- One iteration of the line loop of `parse_ris_content`. -/
def contentStep (m : TagMapping) (st : SState) (raw : List Char) : SState :=
  let line := stripChars isPyWs raw
  if isEndMarker line then
    if st.buf.isEmpty then st
    else { buf := [], recs := flushRecord m st.buf st.recs }
  else if line.isEmpty then st
  else { st with buf := st.buf ++ [line] }

/-- The trailing-buffer flush of `parse_ris_content`: if a non-empty
buffer remains after the scan, flush it as a final chunk. -/
def finalizeSplit (m : TagMapping) (st : SState) : List NormalizedRecord :=
  if st.buf.isEmpty then st.recs
  else flushRecord m st.buf st.recs

/-- `parse_ris_content`: scan the lines, then flush a remaining non-empty
buffer (a file that does not end with a terminator). -/
def parseRisContent (content : String) (m : TagMapping) : List NormalizedRecord :=
  finalizeSplit m ((splitNl content.toList).foldl (contentStep m) ⟨[], []⟩)

/-! ## Duplicate classifier (`check_duplicates`) -/

/-- One row of the duplicate-lookup result
`(a.title, s.name, a.year, a.id, a.abstract)`; `title` is NOT NULL in the
schema, the other payload columns are nullable. -/
structure StoredRow where
  id : Nat
  title : String
  source : Option String
  year : Option Nat
  abstract : Option String
deriving DecidableEq

/-- `record.get('title', '').strip().lower()` (records reaching the
classifier always carry a title; see the titled-record invariant). -/
def incomingTitle (r : NormalizedRecord) : String :=
  pyNorm (r.title.getD "")

/-- `record.get('abstract', '').strip().lower() if record.get('abstract') else ''`. -/
def incomingAbstract (r : NormalizedRecord) : String :=
  match r.abstract with
  | some a => if a = "" then "" else pyNorm a
  | none => ""

/-- The title query: `WHERE LOWER(TRIM(a.title)) = ?`. -/
def titleQuery (store : List StoredRow) (q : String) : List StoredRow :=
  store.filter (fun row => sqlNorm row.title == q)

/-- The abstract query:
`WHERE LOWER(TRIM(a.abstract)) = ? AND a.abstract IS NOT NULL`. -/
def abstractQuery (store : List StoredRow) (q : String) : List StoredRow :=
  store.filter (fun row =>
    match row.abstract with
    | some ab => sqlNorm ab == q
    | none => false)

/-- `title_duplicates` for one incoming record. -/
def titleDups (store : List StoredRow) (r : NormalizedRecord) : List StoredRow :=
  titleQuery store (incomingTitle r)

/-- `abstract_duplicates`: the query runs only `if abstract:` (non-empty). -/
def abstractDups (store : List StoredRow) (r : NormalizedRecord) : List StoredRow :=
  if incomingAbstract r = "" then [] else abstractQuery store (incomingAbstract r)

/-- `has_both_title_and_abstract_match`: when both match lists are
non-empty, the intersection of their id sets is non-empty
(`len(common_ids) > 0`). -/
def hasBothMatch (tm am : List StoredRow) : Bool :=
  if !tm.isEmpty && !am.isEmpty then
    !((tm.map StoredRow.id).inter (am.map StoredRow.id)).isEmpty
  else false

inductive Verdict where
  | Unique
  | FullDuplicate
  | PartDuplicate
deriving DecidableEq

/-- The per-record classification decision of `check_duplicates`:
`if title_duplicates or abstract_duplicates` then full or part according to
`has_both_title_and_abstract_match`, else unique. -/
def verdictOf (store : List StoredRow) (r : NormalizedRecord) : Verdict :=
  let tm := titleDups store r
  let am := abstractDups store r
  if !tm.isEmpty || !am.isEmpty then
    if hasBothMatch tm am then .FullDuplicate else .PartDuplicate
  else .Unique

/-- The `duplicate_info` dictionary built for a duplicate record. -/
structure DupInfo where
  newRecord : NormalizedRecord
  sourceName : String
  titleDuplicates : List StoredRow
  abstractDuplicates : List StoredRow
  duplicateType : List String
deriving DecidableEq

def mkDupInfo (src : String) (r : NormalizedRecord) (tm am : List StoredRow) : DupInfo :=
  { newRecord := r
    sourceName := src
    titleDuplicates := tm
    abstractDuplicates := am
    duplicateType :=
      (if !tm.isEmpty then ["title"] else []) ++ (if !am.isEmpty then ["abstract"] else []) }

/-- The three output lists of `check_duplicates`. -/
structure CDState where
  uniqueRecords : List NormalizedRecord
  fullDuplicates : List DupInfo
  partDuplicates : List DupInfo
deriving DecidableEq

/-- One iteration of the record loop of `check_duplicates`; each record is
appended to exactly one of the three lists. -/
def checkStep (store : List StoredRow) (src : String) (acc : CDState)
    (r : NormalizedRecord) : CDState :=
  let tm := titleDups store r
  let am := abstractDups store r
  if !tm.isEmpty || !am.isEmpty then
    let info := mkDupInfo src r tm am
    if hasBothMatch tm am then
      { acc with fullDuplicates := acc.fullDuplicates ++ [info] }
    else
      { acc with partDuplicates := acc.partDuplicates ++ [info] }
  else { acc with uniqueRecords := acc.uniqueRecords ++ [r] }

/-- `check_duplicates`: classify every incoming record against the store. -/
def checkDuplicates (store : List StoredRow) (newRecords : List NormalizedRecord)
    (src : String) : CDState :=
  newRecords.foldl (checkStep store src) ⟨[], [], []⟩

/-! ## Storage layer (`data_base.py`, `store_record_in_database`, batch loop) -/

/-- One row of the `articles` table. -/
structure Article where
  id : Nat
  title : String
  journal_id : Option Nat
  source_id : Option Nat
  year : Option Nat
  abstract : Option String
deriving DecidableEq

/-- The relational store: dimension tables as `(id, name)` lists, the fact
table, and the two link tables. -/
structure DB where
  sources : List (Nat × String)
  journals : List (Nat × String)
  authors : List (Nat × String)
  keywords : List (Nat × String)
  articles : List Article
  articleAuthor : List (Nat × Nat)
  articleKeyword : List (Nat × Nat)
deriving DecidableEq

/-- Fresh INTEGER PRIMARY KEY for a dimension table: largest id plus one. -/
def nextDimId (table : List (Nat × String)) : Nat :=
  table.foldl (fun acc p => max acc p.1) 0 + 1

/-- The `get_or_create_*` body shared by the four dimension tables:
`if not name: return None`, else select by exact name, else insert. -/
def lookupOrInsert (table : List (Nat × String)) (nm : String) :
    Option Nat × List (Nat × String) :=
  if nm = "" then (none, table)
  else
    match table.find? (fun p => p.2 == nm) with
    | some p => (some p.1, table)
    | none => (some (nextDimId table), table ++ [(nextDimId table, nm)])

def getOrCreateSource (db : DB) (nm : String) : Option Nat × DB :=
  let s := lookupOrInsert db.sources nm
  (s.1, { db with sources := s.2 })

/-- `get_or_create_journal(cursor, record.get('journal'))`: the `None`
argument is falsy, as is the empty string. -/
def getOrCreateJournal (db : DB) (nm : Option String) : Option Nat × DB :=
  match nm with
  | none => (none, db)
  | some n =>
    let s := lookupOrInsert db.journals n
    (s.1, { db with journals := s.2 })

def getOrCreateAuthor (db : DB) (nm : String) : Option Nat × DB :=
  let s := lookupOrInsert db.authors nm
  (s.1, { db with authors := s.2 })

def getOrCreateKeyword (db : DB) (nm : String) : Option Nat × DB :=
  let s := lookupOrInsert db.keywords nm
  (s.1, { db with keywords := s.2 })

/-- Fresh id for the `articles` fact table. -/
def nextArticleId (arts : List Article) : Nat :=
  arts.foldl (fun acc a => max acc a.id) 0 + 1

/-- `INSERT OR IGNORE` into a link table with a composite primary key. -/
def insertIgnore (links : List (Nat × Nat)) (pr : Nat × Nat) : List (Nat × Nat) :=
  if links.contains pr then links else links ++ [pr]

/-- `store_record_in_database`: resolve source and journal dimensions,
insert the article row (the NOT NULL constraint on `articles.title` makes
the insert fail when the title is absent), then link non-empty authors and
keywords.  Uncommitted cursor changes of a failing call are never
observable: the only callers roll the whole transaction back on error. -/
def storeRecordInDatabase (db : DB) (r : NormalizedRecord) (sourceName : String) :
    Except String (DB × Nat) :=
  let s1 := getOrCreateSource db sourceName
  let sourceId := s1.1
  let db1 := s1.2
  let s2 := getOrCreateJournal db1 r.journal
  let journalId := s2.1
  let db2 := s2.2
  match r.title with
  | none => Except.error "NOT NULL constraint failed: articles.title"
  | some t =>
    let aid := nextArticleId db2.articles
    let db3 := { db2 with articles := db2.articles ++ [⟨aid, t, journalId, sourceId, r.year, r.abstract⟩] }
    let db4 := r.authors.foldl (fun d nm =>
      if nm = "" then d
      else
        let s := getOrCreateAuthor d nm
        match s.1 with
        | some auid => { s.2 with articleAuthor := insertIgnore s.2.articleAuthor (aid, auid) }
        | none => s.2) db3
    let db5 := r.keywords.foldl (fun d nm =>
      if nm = "" then d
      else
        let s := getOrCreateKeyword d nm
        match s.1 with
        | some kid => { s.2 with articleKeyword := insertIgnore s.2.articleKeyword (aid, kid) }
        | none => s.2) db4
    Except.ok (db5, aid)

/-- The insert loop over the unique partition, threading the uncommitted
cursor state and counting stored records. -/
def storeBatch (src : String) : DB → List NormalizedRecord → Nat → Except String (DB × Nat)
  | db, [], n => Except.ok (db, n)
  | db, r :: rest, n =>
    match storeRecordInDatabase db r src with
    | Except.ok s => storeBatch src s.1 rest (n + 1)
    | Except.error e => Except.error e

/-- The commit/rollback wrapper of `process_uploaded_file` (and
`process_ris_file`): on success the cursor state is committed; on any
insert failure the connection rolls back to the original store and the
error is re-raised instead of a report. -/
def processUniqueRecords (db : DB) (records : List NormalizedRecord) (src : String) :
    DB × Except String Nat :=
  match storeBatch src db records 0 with
  | Except.ok s => (s.1, Except.ok s.2)
  | Except.error e => (db, Except.error e)

/-! ## Concrete example values used by witnesses and counterexamples -/

/-- A representative tag mapping (title `TI`, author `AU`, year `PY`,
keyword `KW`, abstract `AB`, no journal tag). -/
def exampleMapping : TagMapping :=
  ⟨some "TI", some "AU", none, some "PY", some "KW", some "AB"⟩

/-- The store created by `create_database` before any insert. -/
def emptyDB : DB := ⟨[], [], [], [], [], [], []⟩

/-! ## Helper lemmas -/

theorem startsWithER_iff (cs : List Char) :
    startsWithER cs = true ↔ ∃ rest, cs = 'E' :: 'R' :: rest := by
  rcases cs with _ | ⟨a, _ | ⟨b, rest⟩⟩ <;> simp [startsWithER]

theorem hasSep_iff (cs : List Char) :
    hasSep cs = true ↔ ∃ l r, cs = l ++ ' ' :: ' ' :: '-' :: r := by
  constructor
  · intro h
    induction cs with
    | nil => simp [hasSep] at h
    | cons a rest ih =>
      rcases rest with _ | ⟨b, rest1⟩
      · simp [hasSep] at h
      · rcases rest1 with _ | ⟨c, rest2⟩
        · simp [hasSep] at h
        · rw [hasSep, Bool.or_eq_true] at h
          rcases h with h | h
          · simp only [Bool.and_eq_true, beq_iff_eq] at h
            obtain ⟨⟨ha, hb⟩, hc⟩ := h
            exact ⟨[], rest2, by simp [ha, hb, hc]⟩
          · obtain ⟨l, r, hlr⟩ := ih h
            exact ⟨a :: l, r, by simp [hlr]⟩
  · rintro ⟨l, r, rfl⟩
    induction l with
    | nil => simp [hasSep]
    | cons x l ih => simp [hasSep, ih]

/-! ## C2: end-of-record marker recognition -/

/-- C2 counterexample: the trimmed line `ERX  - y` does not start with `ER`
immediately followed by the tag separator and is not exactly `ER`, yet the
splitter treats it as an end-of-record marker: it terminates the first
chunk, so the file parses into two records instead of one. -/
theorem end_marker_counterexample :
    specIsEndMarker (stripChars isPyWs "ERX  - y".toList) = false ∧
    isEndMarker (stripChars isPyWs "ERX  - y".toList) = true ∧
    (parseRisContent "TI  - A\nERX  - y\nTI  - B" exampleMapping).length = 2 := by
  decide

/-- C2 amended: a (stripped) input line ends a record chunk exactly when it
starts with the two characters `ER` and either the tag-separator pattern
occurs somewhere in the line or the line is exactly `ER`. -/
theorem end_marker_characterization (cs : List Char) :
    isEndMarker cs = true ↔
      ((∃ rest, cs = 'E' :: 'R' :: rest) ∧
        ((∃ l r, cs = l ++ ' ' :: ' ' :: '-' :: r) ∨ cs = ['E', 'R'])) := by
  rw [isEndMarker, Bool.and_eq_true, Bool.or_eq_true, startsWithER_iff, hasSep_iff]
  simp

/-! ## C7: a trailing record without a terminator is still flushed -/

theorem splitNl_ne_nil (cs : List Char) : splitNl cs ≠ [] := by
  induction cs with
  | nil => simp [splitNl]
  | cons c rest ih =>
    rw [splitNl]
    split
    · simp
    · split
      · simp
      · simp

theorem splitNl_append_newline (xs ys : List Char) :
    splitNl (xs ++ '\n' :: ys) = splitNl xs ++ splitNl ys := by
  induction xs with
  | nil => simp [splitNl]
  | cons c xs ih =>
    by_cases hc : c = '\n'
    · subst hc
      simp [splitNl, ih]
    · obtain ⟨l, ls, h⟩ := List.exists_cons_of_ne_nil (splitNl_ne_nil xs)
      simp only [List.cons_append, splitNl, if_neg hc, List.append_eq, ih, h]

theorem finalize_step_er (m : TagMapping) (st : SState) :
    finalizeSplit m (contentStep m st ['E', 'R']) = finalizeSplit m st := by
  have h1 : stripChars isPyWs ['E', 'R'] = ['E', 'R'] := by decide
  have h2 : isEndMarker ['E', 'R'] = true := by decide
  rw [contentStep]
  simp only [h1, h2, if_true]
  by_cases hb : st.buf.isEmpty
  · simp [hb]
  · simp [finalizeSplit, hb]

/-- C7: appending the `ER` terminator to any raw text does not change the
parsed record sequence; in particular a file whose last record is not
followed by a terminator still yields that record, exactly as it would
with one. -/
theorem trailing_record_flushed (content : String) (m : TagMapping) :
    parseRisContent (content ++ "\nER") m = parseRisContent content m := by
  rw [parseRisContent, parseRisContent]
  have hdata : (content ++ "\nER").toList = content.toList ++ '\n' :: ['E', 'R'] := by
    show (content ++ "\nER").data = _
    rw [String.data_append]
    rfl
  rw [hdata, splitNl_append_newline]
  have hER : splitNl ['E', 'R'] = [['E', 'R']] := by decide
  rw [hER, List.foldl_append]
  simp only [List.foldl_cons, List.foldl_nil]
  exact finalize_step_er m _

/-! ## C8: every parsed record has a present, non-empty title -/

theorem mem_flushRecord {m : TagMapping} {buf : List (List Char)}
    {recs : List NormalizedRecord} {r : NormalizedRecord}
    (h : r ∈ flushRecord m buf recs) : r ∈ recs ∨ titled r = true := by
  by_cases ht : titled (parseRisRecord (String.mk (joinNl buf)) m) = true
  · rw [flushRecord] at h
    simp only [ht, if_true, List.mem_append, List.mem_singleton] at h
    rcases h with h | rfl
    · exact Or.inl h
    · exact Or.inr ht
  · rw [flushRecord] at h
    simp only [ht, if_false, Bool.false_eq_true] at h
    exact Or.inl h

theorem mem_contentStep {m : TagMapping} {st : SState} {line : List Char}
    {r : NormalizedRecord} (h : r ∈ (contentStep m st line).recs) :
    r ∈ st.recs ∨ titled r = true := by
  by_cases h1 : isEndMarker (stripChars isPyWs line) = true
  · by_cases h2 : st.buf.isEmpty = true
    · rw [contentStep] at h
      simp only [h1, h2, if_true] at h
      exact Or.inl h
    · rw [contentStep] at h
      simp only [h1, h2, if_true, Bool.false_eq_true, if_false] at h
      exact mem_flushRecord h
  · by_cases h3 : (stripChars isPyWs line).isEmpty = true
    · rw [contentStep] at h
      simp only [h1, h3, Bool.false_eq_true, if_false, if_true] at h
      exact Or.inl h
    · rw [contentStep] at h
      simp only [h1, h3, Bool.false_eq_true, if_false] at h
      exact Or.inl h

theorem fold_contentStep_titled (m : TagMapping) (lines : List (List Char)) :
    ∀ st : SState, (∀ r ∈ st.recs, titled r = true) →
      ∀ r ∈ (lines.foldl (contentStep m) st).recs, titled r = true := by
  induction lines with
  | nil => intro st h; exact h
  | cons line rest ih =>
    intro st h
    apply ih
    intro r hr
    rcases mem_contentStep hr with h' | h'
    · exact h r h'
    · exact h'

theorem mem_finalizeSplit {m : TagMapping} {st : SState} {r : NormalizedRecord}
    (h : r ∈ finalizeSplit m st) : r ∈ st.recs ∨ titled r = true := by
  by_cases hb : st.buf.isEmpty = true
  · rw [finalizeSplit] at h
    simp only [hb, if_true] at h
    exact Or.inl h
  · rw [finalizeSplit] at h
    simp only [hb, Bool.false_eq_true, if_false] at h
    exact mem_flushRecord h

/-- C8: every record produced by parsing raw content carries a present,
non-empty title; a chunk whose extraction yields no resolvable title is
dropped (the parse is total, so no error is raised for such chunks). -/
theorem parsed_records_titled (content : String) (m : TagMapping)
    (r : NormalizedRecord) (h : r ∈ parseRisContent content m) :
    ∃ s, r.title = some s ∧ s ≠ "" := by
  have ht : titled r = true := by
    rw [parseRisContent] at h
    rcases mem_finalizeSplit h with h' | h'
    · exact fold_contentStep_titled m _ _ (by simp) r h'
    · exact h'
  rcases hr : r.title with _ | s
  · rw [titled, hr] at ht
    cases ht
  · refine ⟨s, rfl, ?_⟩
    rw [titled, hr] at ht
    simpa using ht

/-- C8 witness: the record parsed from `TI  - A` is a member of the output
and indeed has the non-empty title `A`. -/
theorem parsed_records_titled_witness :
    ∃ s, (NormalizedRecord.mk (some "A") none none none [] []).title = some s ∧ s ≠ "" :=
  parsed_records_titled "TI  - A" exampleMapping
    ⟨some "A", none, none, none, [], []⟩ (by decide)

/-! ## C6: continuation lines merge into the most recent value -/

theorem appendToLast_concat (pre : List String) (lastV suffix : String) :
    appendToLast (pre ++ [lastV]) suffix = pre ++ [lastV ++ suffix] := by
  induction pre with
  | nil => rfl
  | cons p pre ih =>
    have hstep : appendToLast (p :: (pre ++ [lastV])) suffix
        = p :: appendToLast (pre ++ [lastV]) suffix := by
      rcases pre with _ | ⟨q, pre'⟩ <;> rfl
    simp only [List.cons_append, hstep, ih]

/-- C6: a non-empty, non-tag line processed while a tracked tag is current
and has accumulated content appends, space-joined, to that tag's most
recent value (the element count is unchanged, the current tag stays, and
every other tag's values are untouched); in particular the two lines
`AB  - Part one` then `of the abstract` extract to the abstract
`Part one of the abstract`. -/
theorem continuation_merging :
    (∀ (m : TagMapping) (st : PState) (t : String) (raw : List Char)
        (pre : List String) (lastV : String),
      stripChars isPyWs raw ≠ [] →
      isTagLine (stripChars isPyWs raw) = false →
      st.currentTag = some t →
      st.tags t = pre ++ [lastV] →
      (parseLine m st raw).tags t
          = pre ++ [lastV ++ " " ++ String.mk (stripChars isPyWs raw)] ∧
        ((parseLine m st raw).tags t).length = (st.tags t).length ∧
        (parseLine m st raw).currentTag = some t ∧
        ∀ u, u ≠ t → (parseLine m st raw).tags u = st.tags u) ∧
    (parseRisRecord "AB  - Part one\nof the abstract" exampleMapping).abstract
      = some "Part one of the abstract" := by
  constructor
  · intro m st t raw pre lastV h1 h2 h3 h4
    have hne : (stripChars isPyWs raw).isEmpty = false := by
      simpa using h1
    have hnonempty : (st.tags t).isEmpty = false := by
      rw [h4]
      simp
    rw [parseLine]
    simp only [hne, Bool.false_eq_true, if_false, h2, h3, hnonempty]
    refine ⟨?_, ?_, trivial, ?_⟩
    · simp [h4, appendToLast_concat, String.append_assoc]
    · simp [h4, appendToLast_concat]
    · intro u hu
      simp [hu]
  · decide

/-- C6 witness: the step conclusion instantiated at the state reached right
after the line `AB  - Part one`, fed the continuation line. -/
theorem continuation_merging_witness :
    (parseLine exampleMapping
        ⟨fun u => if u = "AB" then ["Part one"] else [], some "AB"⟩
        "of the abstract".toList).tags "AB"
      = [] ++ ["Part one" ++ " " ++ String.mk (stripChars isPyWs "of the abstract".toList)] :=
  (continuation_merging.1 exampleMapping
      ⟨fun u => if u = "AB" then ["Part one"] else [], some "AB"⟩
      "AB" "of the abstract".toList [] "Part one"
      (by decide) (by decide) rfl (by simp)).1

/-! ## C1: full duplicate exactly on a common stored row id -/

theorem inter_nil_left (l : List Nat) : List.inter ([] : List Nat) l = [] := rfl

theorem inter_nil_right (l : List Nat) : l.inter ([] : List Nat) = [] := by
  show l ∩ [] = []
  exact List.inter_nil' l

/-- C1: the verdict is `FullDuplicate` exactly when the intersection of the
stored-row ids of the title matches and of the abstract matches is
non-empty; when both match sets are non-empty but share no id, the verdict
is `PartDuplicate` (matching two different stored rows on two different
fields is not full). -/
theorem full_duplicate_iff_common_id (store : List StoredRow) (r : NormalizedRecord)
    (h : r.title ≠ none) :
    (verdictOf store r = .FullDuplicate ↔
      ((titleDups store r).map StoredRow.id).inter
        ((abstractDups store r).map StoredRow.id) ≠ []) ∧
    (titleDups store r ≠ [] → abstractDups store r ≠ [] →
      ((titleDups store r).map StoredRow.id).inter
        ((abstractDups store r).map StoredRow.id) = [] →
      verdictOf store r = .PartDuplicate) := by
  constructor
  · by_cases htm : titleDups store r = [] <;>
      by_cases ham : abstractDups store r = [] <;>
      by_cases hint : ((titleDups store r).map StoredRow.id).inter
          ((abstractDups store r).map StoredRow.id) = [] <;>
      simp_all [verdictOf, hasBothMatch, List.isEmpty_iff, inter_nil_left, inter_nil_right]
  · intro h1 h2 h3
    simp [verdictOf, hasBothMatch, List.isEmpty_iff, h1, h2, h3]

/-- C1 witness: a store whose single row matches the incoming record on
both title and abstract yields a full duplicate, and the id intersection
is non-empty. -/
theorem full_duplicate_iff_common_id_witness :
    (verdictOf [⟨1, "T", none, none, some "A"⟩]
        ⟨some "T", none, none, some "A", [], []⟩ = .FullDuplicate ↔
      ((titleDups [⟨1, "T", none, none, some "A"⟩]
            ⟨some "T", none, none, some "A", [], []⟩).map StoredRow.id).inter
        ((abstractDups [⟨1, "T", none, none, some "A"⟩]
            ⟨some "T", none, none, some "A", [], []⟩).map StoredRow.id) ≠ []) ∧
    (titleDups [⟨1, "T", none, none, some "A"⟩]
        ⟨some "T", none, none, some "A", [], []⟩ ≠ [] →
      abstractDups [⟨1, "T", none, none, some "A"⟩]
        ⟨some "T", none, none, some "A", [], []⟩ ≠ [] →
      ((titleDups [⟨1, "T", none, none, some "A"⟩]
            ⟨some "T", none, none, some "A", [], []⟩).map StoredRow.id).inter
        ((abstractDups [⟨1, "T", none, none, some "A"⟩]
            ⟨some "T", none, none, some "A", [], []⟩).map StoredRow.id) = [] →
      verdictOf [⟨1, "T", none, none, some "A"⟩]
        ⟨some "T", none, none, some "A", [], []⟩ = .PartDuplicate) :=
  full_duplicate_iff_common_id [⟨1, "T", none, none, some "A"⟩]
    ⟨some "T", none, none, some "A", [], []⟩ (by decide)

/-! ## C4: unique exactly when both match sets are empty -/

/-- C4: the verdict is `Unique` exactly when the title-match set and the
abstract-match set are both empty, and the abstract-match set is empty
whenever the incoming abstract is absent or the empty string (no abstract
query is run for such a record). -/
theorem unique_iff_no_matches (store : List StoredRow) (r : NormalizedRecord)
    (h : r.title ≠ none) :
    (verdictOf store r = .Unique ↔
      titleDups store r = [] ∧ abstractDups store r = []) ∧
    ((r.abstract = none ∨ r.abstract = some "") → abstractDups store r = []) := by
  constructor
  · by_cases htm : titleDups store r = [] <;>
      by_cases ham : abstractDups store r = [] <;>
      by_cases hb : hasBothMatch (titleDups store r) (abstractDups store r) = true <;>
      simp_all [verdictOf, List.isEmpty_iff]
  · intro habs
    rcases habs with h1 | h1 <;> simp [abstractDups, incomingAbstract, h1]

/-- C4 witness: an incoming record without an abstract against an empty
store is unique, with both match sets empty. -/
theorem unique_iff_no_matches_witness :
    (verdictOf [] ⟨some "t", none, none, none, [], []⟩ = .Unique ↔
      titleDups [] ⟨some "t", none, none, none, [], []⟩ = [] ∧
      abstractDups [] ⟨some "t", none, none, none, [], []⟩ = []) ∧
    (((⟨some "t", none, none, none, [], []⟩ : NormalizedRecord).abstract = none ∨
      (⟨some "t", none, none, none, [], []⟩ : NormalizedRecord).abstract = some "") →
      abstractDups [] ⟨some "t", none, none, none, [], []⟩ = []) :=
  unique_iff_no_matches [] ⟨some "t", none, none, none, [], []⟩ (by decide)

/-! ## C5: comparison normalization on the two sides -/

/-- C5 counterexample: the stored title carries a leading tab. Trimming
whitespace and lowercasing both sides makes the two titles equal, but the
classifier does not match them: SQLite `TRIM` removes only spaces, so the
stored side keeps its tab and the record is classified `Unique`. -/
theorem normalization_tab_counterexample :
    specNormalize "\tDeep Learning" = specNormalize "deep learning" ∧
    titleDups [⟨1, "\tDeep Learning", none, none, none⟩]
        ⟨some "deep learning", none, none, none, [], []⟩ = [] ∧
    verdictOf [⟨1, "\tDeep Learning", none, none, none⟩]
        ⟨some "deep learning", none, none, none, [], []⟩ = .Unique := by
  decide

/-- C5 amended: equality is decided by comparing `strip().lower()` of the
incoming value with `LOWER(TRIM(...))` of the stored value; whenever the
stored value's outer whitespace consists of spaces only (so SQL TRIM and
whitespace-trim agree on it), this coincides with trimming whitespace and
lowercasing both sides, and the spec's example pair is matched. -/
theorem normalization_agreement (s : String) (row : StoredRow)
    (h : sqlTrim row.title = pyStrip row.title) :
    ((sqlNorm row.title = pyNorm s) ↔
      specNormalize row.title = specNormalize s) ∧
    (∀ store : List StoredRow, row ∈ store →
      (row ∈ titleQuery store (pyNorm s) ↔
        specNormalize row.title = specNormalize s)) ∧
    titleDups [⟨1, "  Deep Learning  ", none, none, none⟩]
        ⟨some "DEEP LEARNING", none, none, none, [], []⟩ =
      [⟨1, "  Deep Learning  ", none, none, none⟩] := by
  have key : sqlNorm row.title = specNormalize row.title := by
    rw [sqlNorm, h]
    rfl
  have key2 : pyNorm s = specNormalize s := rfl
  refine ⟨?_, ?_, by decide⟩
  · rw [key, key2]
  · intro store hmem
    rw [titleQuery, List.mem_filter]
    simp [hmem, key, key2]

/-! ## C9: the three classifier outputs partition the input -/

theorem checkStep_unique {store : List StoredRow} {src : String} {acc : CDState}
    {r : NormalizedRecord} (h : verdictOf store r = .Unique) :
    checkStep store src acc r
      = { acc with uniqueRecords := acc.uniqueRecords ++ [r] } := by
  by_cases hc : (!(titleDups store r).isEmpty || !(abstractDups store r).isEmpty) = true <;>
    by_cases hb : hasBothMatch (titleDups store r) (abstractDups store r) = true <;>
    simp_all [verdictOf, checkStep]

theorem checkStep_full {store : List StoredRow} {src : String} {acc : CDState}
    {r : NormalizedRecord} (h : verdictOf store r = .FullDuplicate) :
    checkStep store src acc r
      = { acc with fullDuplicates := acc.fullDuplicates
            ++ [mkDupInfo src r (titleDups store r) (abstractDups store r)] } := by
  by_cases hc : (!(titleDups store r).isEmpty || !(abstractDups store r).isEmpty) = true <;>
    by_cases hb : hasBothMatch (titleDups store r) (abstractDups store r) = true <;>
    simp_all [verdictOf, checkStep]

theorem checkStep_part {store : List StoredRow} {src : String} {acc : CDState}
    {r : NormalizedRecord} (h : verdictOf store r = .PartDuplicate) :
    checkStep store src acc r
      = { acc with partDuplicates := acc.partDuplicates
            ++ [mkDupInfo src r (titleDups store r) (abstractDups store r)] } := by
  by_cases hc : (!(titleDups store r).isEmpty || !(abstractDups store r).isEmpty) = true <;>
    by_cases hb : hasBothMatch (titleDups store r) (abstractDups store r) = true <;>
    simp_all [verdictOf, checkStep]

theorem checkDuplicates_go (store : List StoredRow) (src : String) :
    ∀ (rs : List NormalizedRecord) (acc : CDState),
      rs.foldl (checkStep store src) acc =
        ⟨acc.uniqueRecords ++ rs.filter (fun r => verdictOf store r == .Unique),
         acc.fullDuplicates
           ++ (rs.filter (fun r => verdictOf store r == .FullDuplicate)).map
              (fun r => mkDupInfo src r (titleDups store r) (abstractDups store r)),
         acc.partDuplicates
           ++ (rs.filter (fun r => verdictOf store r == .PartDuplicate)).map
              (fun r => mkDupInfo src r (titleDups store r) (abstractDups store r))⟩ := by
  intro rs
  induction rs with
  | nil => intro acc; simp
  | cons r rs ih =>
    intro acc
    cases hv : verdictOf store r with
    | Unique =>
      rw [List.foldl_cons, checkStep_unique hv, ih]
      simp [hv]
    | FullDuplicate =>
      rw [List.foldl_cons, checkStep_full hv, ih]
      simp [hv]
    | PartDuplicate =>
      rw [List.foldl_cons, checkStep_part hv, ih]
      simp [hv]

theorem verdict_filter_lengths (store : List StoredRow) :
    ∀ rs : List NormalizedRecord,
      (rs.filter (fun r => verdictOf store r == .Unique)).length
        + (rs.filter (fun r => verdictOf store r == .FullDuplicate)).length
        + (rs.filter (fun r => verdictOf store r == .PartDuplicate)).length
      = rs.length := by
  intro rs
  induction rs with
  | nil => rfl
  | cons r rs ih =>
    cases hv : verdictOf store r <;> simp [hv, ih] <;> omega

/-- C9: the classifier's three output lists partition the input: the
unique list is the sublist of records classified unique, the full and
the part lists carry (in `newRecord`) the sublists classified full and
part duplicates, and the three lengths sum to the input length, so every
input record is placed in exactly one list, in input order. -/
theorem classifier_partition (store : List StoredRow) (src : String)
    (rs : List NormalizedRecord) (h : ∀ r ∈ rs, r.title ≠ none) :
    (checkDuplicates store rs src).uniqueRecords
        = rs.filter (fun r => verdictOf store r == .Unique) ∧
    (checkDuplicates store rs src).fullDuplicates.map DupInfo.newRecord
        = rs.filter (fun r => verdictOf store r == .FullDuplicate) ∧
    (checkDuplicates store rs src).partDuplicates.map DupInfo.newRecord
        = rs.filter (fun r => verdictOf store r == .PartDuplicate) ∧
    (checkDuplicates store rs src).uniqueRecords.length
      + (checkDuplicates store rs src).fullDuplicates.length
      + (checkDuplicates store rs src).partDuplicates.length = rs.length := by
  rw [checkDuplicates, checkDuplicates_go]
  have hcomp : (DupInfo.newRecord ∘ fun r =>
      mkDupInfo src r (titleDups store r) (abstractDups store r)) = id := rfl
  refine ⟨by simp, ?_, ?_, ?_⟩
  · dsimp only
    rw [List.nil_append, List.map_map, hcomp, List.map_id]
  · dsimp only
    rw [List.nil_append, List.map_map, hcomp, List.map_id]
  · dsimp only
    simp only [List.nil_append, List.length_map]
    exact verdict_filter_lengths store rs

/-- C9 witness: a batch with one full duplicate, one part duplicate and
one unique record against a two-row store. -/
theorem classifier_partition_witness :
    (checkDuplicates
        [⟨1, "T", none, none, some "A"⟩, ⟨2, "X", none, none, some "B"⟩]
        [⟨some "T", none, none, some "A", [], []⟩,
         ⟨some "T", none, none, some "B", [], []⟩,
         ⟨some "Z", none, none, none, [], []⟩] "Scopus").uniqueRecords
        = [⟨some "T", none, none, some "A", [], []⟩,
           ⟨some "T", none, none, some "B", [], []⟩,
           ⟨some "Z", none, none, none, [], []⟩].filter
            (fun r => verdictOf [⟨1, "T", none, none, some "A"⟩,
              ⟨2, "X", none, none, some "B"⟩] r == .Unique) ∧
    ((checkDuplicates
        [⟨1, "T", none, none, some "A"⟩, ⟨2, "X", none, none, some "B"⟩]
        [⟨some "T", none, none, some "A", [], []⟩,
         ⟨some "T", none, none, some "B", [], []⟩,
         ⟨some "Z", none, none, none, [], []⟩] "Scopus").fullDuplicates.map
        DupInfo.newRecord)
        = [⟨some "T", none, none, some "A", [], []⟩,
           ⟨some "T", none, none, some "B", [], []⟩,
           ⟨some "Z", none, none, none, [], []⟩].filter
            (fun r => verdictOf [⟨1, "T", none, none, some "A"⟩,
              ⟨2, "X", none, none, some "B"⟩] r == .FullDuplicate) ∧
    ((checkDuplicates
        [⟨1, "T", none, none, some "A"⟩, ⟨2, "X", none, none, some "B"⟩]
        [⟨some "T", none, none, some "A", [], []⟩,
         ⟨some "T", none, none, some "B", [], []⟩,
         ⟨some "Z", none, none, none, [], []⟩] "Scopus").partDuplicates.map
        DupInfo.newRecord)
        = [⟨some "T", none, none, some "A", [], []⟩,
           ⟨some "T", none, none, some "B", [], []⟩,
           ⟨some "Z", none, none, none, [], []⟩].filter
            (fun r => verdictOf [⟨1, "T", none, none, some "A"⟩,
              ⟨2, "X", none, none, some "B"⟩] r == .PartDuplicate) ∧
    (checkDuplicates
        [⟨1, "T", none, none, some "A"⟩, ⟨2, "X", none, none, some "B"⟩]
        [⟨some "T", none, none, some "A", [], []⟩,
         ⟨some "T", none, none, some "B", [], []⟩,
         ⟨some "Z", none, none, none, [], []⟩] "Scopus").uniqueRecords.length
      + (checkDuplicates
        [⟨1, "T", none, none, some "A"⟩, ⟨2, "X", none, none, some "B"⟩]
        [⟨some "T", none, none, some "A", [], []⟩,
         ⟨some "T", none, none, some "B", [], []⟩,
         ⟨some "Z", none, none, none, [], []⟩] "Scopus").fullDuplicates.length
      + (checkDuplicates
        [⟨1, "T", none, none, some "A"⟩, ⟨2, "X", none, none, some "B"⟩]
        [⟨some "T", none, none, some "A", [], []⟩,
         ⟨some "T", none, none, some "B", [], []⟩,
         ⟨some "Z", none, none, none, [], []⟩] "Scopus").partDuplicates.length
      = ([⟨some "T", none, none, some "A", [], []⟩,
          ⟨some "T", none, none, some "B", [], []⟩,
          ⟨some "Z", none, none, none, [], []⟩] :
            List NormalizedRecord).length :=
  classifier_partition
    [⟨1, "T", none, none, some "A"⟩, ⟨2, "X", none, none, some "B"⟩] "Scopus"
    [⟨some "T", none, none, some "A", [], []⟩,
     ⟨some "T", none, none, some "B", [], []⟩,
     ⟨some "Z", none, none, none, [], []⟩] (by decide)

/-- C5 amended witness: the spec's example pair, whose outer whitespace is
spaces only. -/
theorem normalization_agreement_witness :
    (sqlNorm "  Deep Learning  " = pyNorm "DEEP LEARNING") ↔
      specNormalize "  Deep Learning  " = specNormalize "DEEP LEARNING" :=
  (normalization_agreement "DEEP LEARNING"
    ⟨1, "  Deep Learning  ", none, none, none⟩ (by decide)).1

/-! ## C3: the unique batch is all-or-nothing -/

theorem storeRecord_error_iff (db : DB) (r : NormalizedRecord) (src : String) :
    (∃ e, storeRecordInDatabase db r src = Except.error e) ↔ r.title = none := by
  cases ht : r.title <;> simp [storeRecordInDatabase, ht]

theorem storeBatch_error (src : String) :
    ∀ (rs : List NormalizedRecord) (db : DB) (n : Nat),
      (∃ r ∈ rs, r.title = none) →
      ∃ e, storeBatch src db rs n = Except.error e := by
  intro rs
  induction rs with
  | nil =>
    intro db n h
    simp at h
  | cons r rest ih =>
    intro db n h
    cases hsr : storeRecordInDatabase db r src with
    | error e =>
      refine ⟨e, ?_⟩
      rw [storeBatch, hsr]
    | ok s =>
      have hr : r.title ≠ none := by
        intro hnone
        obtain ⟨e, he⟩ := (storeRecord_error_iff db r src).mpr hnone
        rw [he] at hsr
        cases hsr
      have hmem : ∃ x ∈ rest, x.title = none := by
        obtain ⟨x, hx, hxt⟩ := h
        rcases List.mem_cons.mp hx with rfl | hx'
        · exact absurd hxt hr
        · exact ⟨x, hx', hxt⟩
      obtain ⟨e, he⟩ := ih s.1 (n + 1) hmem
      refine ⟨e, ?_⟩
      rw [storeBatch, hsr]
      exact he

/-- C3: if any record of the unique partition has no title, its insert
violates the NOT NULL constraint, the whole batch is rolled back (the
persistent store, in particular its article count, is unchanged) and an
error is surfaced to the caller instead of a stored-count report. -/
theorem batch_rollback_on_failure (db : DB) (rs : List NormalizedRecord) (src : String)
    (h : ∃ r ∈ rs, r.title = none) :
    (processUniqueRecords db rs src).1 = db ∧
    (processUniqueRecords db rs src).1.articles.length = db.articles.length ∧
    ∃ e, (processUniqueRecords db rs src).2 = Except.error e := by
  obtain ⟨e, he⟩ := storeBatch_error src rs db 0 h
  rw [processUniqueRecords, he]
  exact ⟨rfl, rfl, e, rfl⟩

/-- C3 witness: the second of three inserts fails; the store (initially
empty) is left unchanged and an error is returned. -/
theorem batch_rollback_on_failure_witness :
    (processUniqueRecords emptyDB
        [⟨some "Good", none, none, none, [], []⟩,
         ⟨none, none, none, none, [], []⟩,
         ⟨some "More", none, none, none, [], []⟩] "Scopus").1 = emptyDB ∧
    (processUniqueRecords emptyDB
        [⟨some "Good", none, none, none, [], []⟩,
         ⟨none, none, none, none, [], []⟩,
         ⟨some "More", none, none, none, [], []⟩] "Scopus").1.articles.length
      = emptyDB.articles.length ∧
    ∃ e, (processUniqueRecords emptyDB
        [⟨some "Good", none, none, none, [], []⟩,
         ⟨none, none, none, none, [], []⟩,
         ⟨some "More", none, none, none, [], []⟩] "Scopus").2 = Except.error e :=
  batch_rollback_on_failure emptyDB
    [⟨some "Good", none, none, none, [], []⟩,
     ⟨none, none, none, none, [], []⟩,
     ⟨some "More", none, none, none, [], []⟩] "Scopus" (by decide)

/-! ## C10: a titled record with no optional data stores cleanly -/

theorem foldl_id_of_all_empty (g : DB → String → DB) (hg : ∀ d, g d "" = d) :
    ∀ (l : List String) (d : DB), (∀ a ∈ l, a = "") → l.foldl g d = d := by
  intro l
  induction l with
  | nil => intro d _; rfl
  | cons a l ih =>
    intro d h
    have ha : a = "" := h a (by simp)
    rw [List.foldl_cons, ha, hg]
    exact ih d (fun x hx => h x (by simp [hx]))

/-- C10: storing a record that has a title succeeds even when every
optional field is absent: an absent or empty journal name yields a null
journal id and no journal row, the article row is inserted with null
journal, year and abstract, and empty-string author and keyword entries
are skipped, leaving all dimension and link tables unchanged. -/
theorem store_minimal_record_succeeds (db : DB) (srcName t : String)
    (jrn : Option String) (authors keywords : List String)
    (hj : jrn = none ∨ jrn = some "") (ha : ∀ a ∈ authors, a = "")
    (hk : ∀ k ∈ keywords, k = "") :
    ∃ db' aid sid,
      storeRecordInDatabase db ⟨some t, jrn, none, none, authors, keywords⟩ srcName
        = Except.ok (db', aid) ∧
      db'.journals = db.journals ∧
      db'.authors = db.authors ∧
      db'.keywords = db.keywords ∧
      db'.articleAuthor = db.articleAuthor ∧
      db'.articleKeyword = db.articleKeyword ∧
      aid = nextArticleId db.articles ∧
      db'.articles = db.articles ++ [⟨aid, t, none, sid, none, none⟩] := by
  have hjr : ∀ d : DB, getOrCreateJournal d jrn = (none, d) := by
    intro d
    rcases hj with rfl | rfl
    · rfl
    · simp [getOrCreateJournal, lookupOrInsert]
  have key : storeRecordInDatabase db ⟨some t, jrn, none, none, authors, keywords⟩ srcName
      = Except.ok
          ({ db with
              sources := (lookupOrInsert db.sources srcName).2,
              articles := db.articles ++
                [⟨nextArticleId db.articles, t, none,
                  (lookupOrInsert db.sources srcName).1, none, none⟩] },
            nextArticleId db.articles) := by
    simp only [storeRecordInDatabase, getOrCreateSource, hjr]
    rw [foldl_id_of_all_empty _ (by intro d; simp) authors _ ha,
        foldl_id_of_all_empty _ (by intro d; simp) keywords _ hk]
  exact ⟨_, _, _, key, rfl, rfl, rfl, rfl, rfl, rfl, rfl⟩

/-- C10 witness: an empty store, a titled record whose journal is absent
and whose author and keyword lists hold only empty strings. -/
theorem store_minimal_record_succeeds_witness :
    ∃ db' aid sid,
      storeRecordInDatabase emptyDB ⟨some "X", none, none, none, ["", ""], [""]⟩ "Scopus"
        = Except.ok (db', aid) ∧
      db'.journals = emptyDB.journals ∧
      db'.authors = emptyDB.authors ∧
      db'.keywords = emptyDB.keywords ∧
      db'.articleAuthor = emptyDB.articleAuthor ∧
      db'.articleKeyword = emptyDB.articleKeyword ∧
      aid = nextArticleId emptyDB.articles ∧
      db'.articles = emptyDB.articles ++ [⟨aid, "X", none, sid, none, none⟩] :=
  store_minimal_record_succeeds emptyDB "Scopus" "X" none ["", ""] [""]
    (Or.inl rfl) (by decide) (by decide)

end SLR
